import Mathlib

/-!
# Verification of the edc2svd conversion core (src/main.rs)

Shallow embedding of the core transformation logic of `edc2svd`, a converter
from the EDC register-description format to the SVD format.  The embedding
follows `src/main.rs`:

* `parse_u32`               — numeral parsing (lines 41–47),
* `add_register`            — field-layout builder and register emission
                              (lines 55–100),
* `analyze_periph`'s body   — portals / reset decoding, peripheral-name
  inference, peripheral grouping and register synthesis (lines 102–225),
  split here into `decode_portals`, `decode_reset`, `guess_peri`,
  `synthesize` and `processSFR` / `analyzeLoop`.

Machine integers (`u32`) are modelled as `Nat` with explicit reduction
modulo `2 ^ 32` where the Rust code could wrap; fallible operations
(`Result`/`panic!`/`assert!` in the source) are modelled with `Option` and
`Except String`.
-/

namespace Edc2Svd

/-- The `u32` modulus, `2 ^ 32`. -/
def u32Mod : Nat := 4294967296

/-- Value of a decimal digit character, as accepted by Rust
`u32::from_str_radix(_, 10)`. -/
def decDigitVal (c : Char) : Option Nat :=
  if '0' ≤ c ∧ c ≤ '9' then some (c.toNat - '0'.toNat) else none

/-- Value of a hexadecimal digit character, as accepted by Rust
`u32::from_str_radix(_, 16)` (both letter cases). -/
def hexDigitVal (c : Char) : Option Nat :=
  if '0' ≤ c ∧ c ≤ '9' then some (c.toNat - '0'.toNat)
  else if 'a' ≤ c ∧ c ≤ 'f' then some (c.toNat - 'a'.toNat + 10)
  else if 'A' ≤ c ∧ c ≤ 'F' then some (c.toNat - 'A'.toNat + 10)
  else none

/-- Value of a binary digit character, as accepted by Rust
`u32::from_str_radix(_, 2)`. -/
def binDigitVal (c : Char) : Option Nat :=
  if c = '0' then some 0 else if c = '1' then some 1 else none

/-- Digit-accumulation loop of Rust `u32::from_str_radix`: fails on the
first invalid digit and on overflow past `u32::MAX` (Rust uses
`checked_mul`/`checked_add`, which is equivalent to this combined bound
check since `acc * radix ≤ acc * radix + d`). -/
def parseDigits (radix : Nat) (digitVal : Char → Option Nat) :
    List Char → Nat → Option Nat
  | [], acc => some acc
  | c :: cs, acc =>
    match digitVal c with
    | none => none
    | some d =>
      let v := acc * radix + d
      if v < u32Mod then parseDigits radix digitVal cs v else none

/-- Rust `u32::from_str_radix` on a character list: an optional leading
`'+'` sign (a `'-'` sign is rejected for unsigned types), then at least one
digit, no other characters. -/
def fromStrRadix (radix : Nat) (digitVal : Char → Option Nat)
    (cs : List Char) : Option Nat :=
  match cs with
  | [] => none
  | c :: rest =>
    if c = '+' then
      if rest = [] then none else parseDigits radix digitVal rest 0
    else parseDigits radix digitVal (c :: rest) 0

/-- `parse_u32` (main.rs lines 41–47): a string starting with `"0x"` is
parsed as hexadecimal from the third character on, anything else as
decimal.  `"0x"` and the ASCII prefix test are byte-level in Rust, which
coincides with this character-level match. -/
def parse_u32 (text : String) : Option Nat :=
  match text.data with
  | '0' :: 'x' :: rest => fromStrRadix 16 hexDigitVal rest
  | _ => fromStrRadix 10 decDigitVal text.data

/-- Portals decoding (main.rs lines 119–124): the `match` on the `portals`
attribute string, yielding the `(clr, set, inv)` flags or panicking. -/
def decode_portals (s : String) : Option (Bool × Bool × Bool) :=
  if s = "CLR SET INV" then some (true, true, true)
  else if s = "CLR - -" then some (true, false, false)
  else if s = "- - -" then some (false, false, false)
  else none

/-- The three chained single-character `String::replace` calls on the
`mclr` attribute (main.rs lines 127–130): `'-'`, `'x'` and `'u'` each
become `'0'`. -/
def cleanResetChar (c : Char) : Char :=
  if c = '-' then '0' else if c = 'x' then '0' else if c = 'u' then '0' else c

/-- Reset-value decoding (main.rs lines 126–133): replace placeholder
characters by `'0'`, then parse the result as base-2 (panic on failure,
modelled as `none`). -/
def decode_reset (s : String) : Option Nat :=
  fromStrRadix 2 binDigitVal (s.data.map cleanResetChar)

/-- A child of an `SFRMode` element, as inspected by `add_register`
(main.rs lines 74–94): a `SFRFieldDef` (attributes `name`, `cname`,
`nzwidth`), an `AdjustPoint` (attribute `offset`), or any other element
(which makes the loop panic). -/
inductive ModeEntry : Type
  | fieldDef (name cname nzwidth : String)
  | adjustPoint (offset : String)
  | otherElem (name : String)
deriving DecidableEq, Repr

/-- An emitted SVD `field` element: the `name` child and the two numbers
printed into the `bitRange` child (main.rs lines 82–87). -/
structure Field : Type where
  name : String
  msb : Nat
  lsb : Nat
deriving DecidableEq, Repr

/-- The `bitRange` text exactly as formatted by
`format!("[{}:{}]", bitpos + width - 1, bitpos)`. -/
def Field.bitRange (f : Field) : String :=
  "[" ++ Nat.repr f.msb ++ ":" ++ Nat.repr f.lsb ++ "]"

/-- An emitted SVD `register` element (main.rs lines 64–98): children
`name`, `description`, `addressOffset`, `size`, `resetValue` and an
optional `fields` list.  `addressOffset`, `size` and `resetValue` hold the
numeric values that the source formats into text. -/
structure Register : Type where
  name : String
  description : String
  addressOffset : Nat
  size : Nat
  resetValue : Nat
  fields : Option (List Field)
deriving DecidableEq, Repr

/-- An emitted SVD `peripheral` element (main.rs lines 178–190): children
`name`, `description`, `baseAddress` and the `registers` list. -/
structure Peripheral : Type where
  name : String
  description : String
  baseAddress : Nat
  registers : List Register
deriving DecidableEq, Repr

/-- The field-layout loop of `add_register` (main.rs lines 73–95): a
running bit-position cursor starts at 0; a `SFRFieldDef` of width `w`
emits the field `[bitpos + w - 1 : bitpos]` (u32 arithmetic: the `- 1`
wraps modulo `2 ^ 32` when `bitpos + w = 0`) and advances the cursor by
`w`; an `AdjustPoint` advances the cursor by its `offset`; any other
element panics, as does an unparsable `nzwidth`/`offset` attribute.
Returns the fields in order together with the final cursor. -/
def layoutFields : List ModeEntry → Nat → Except String (List Field × Nat)
  | [], bitpos => .ok ([], bitpos)
  | .fieldDef _ cname nzwidth :: rest, bitpos =>
    match parse_u32 nzwidth with
    | none => .error ("cannot parse nzwidth attribute " ++ nzwidth)
    | some w =>
      let msb := (bitpos + w + (u32Mod - 1)) % u32Mod
      match layoutFields rest ((bitpos + w) % u32Mod) with
      | .error e => .error e
      | .ok (fs, final) => .ok (⟨cname, msb, bitpos⟩ :: fs, final)
  | .adjustPoint offset :: rest, bitpos =>
    match parse_u32 offset with
    | none => .error ("cannot parse offset attribute " ++ offset)
    | some o => layoutFields rest ((bitpos + o) % u32Mod)
  | .otherElem n :: _, _ =>
    .error ("unexpected element " ++ n ++ " in field definition")

/-- The register element built by `add_register` (main.rs lines 64–98)
from a name, offset, reset value and the result of the field-layout loop:
description `"<name> register"`, size 32, and a `fields` child exactly
when the final cursor is positive. -/
def mkRegister (name : String) (offset reset : Nat)
    (fields : List Field) (bitpos : Nat) : Register :=
  { name
    description := name ++ " register"
    addressOffset := offset
    size := 32
    resetValue := reset
    fields := if bitpos > 0 then some fields else none }

/-- Append a register to the `registers` list of the last peripheral of
the output (`peri_out_e.children.last_mut().unwrap()` in main.rs
lines 61–62 and 99); `none` models the panic on an empty output. -/
def pushToLast (out : List Peripheral) (reg : Register) :
    Option (List Peripheral) :=
  match out with
  | [] => none
  | [p] => some [{ p with registers := p.registers ++ [reg] }]
  | p :: ps => (pushToLast ps reg).map (p :: ·)

/-- `add_register` (main.rs lines 55–100): run the field-layout loop on
the mode block, build the register element and append it to the last
peripheral of the output. -/
def add_register (out : List Peripheral) (name : String)
    (offset reset : Nat) (mode : List ModeEntry) :
    Except String (List Peripheral) :=
  match layoutFields mode 0 with
  | .error e => .error e
  | .ok (fields, bitpos) =>
    match pushToLast out (mkRegister name offset reset fields bitpos) with
    | none => .error "no peripheral to add the register to"
    | some out => .ok out

/-- An `SFRDef` element as read by `analyze_periph` (main.rs
lines 106–172): the attributes the code accesses by indexing (`_addr`,
`name`, `cname`, `mclr` — a missing one panics and is out of the claims'
scope, so they are plain fields) or by `get` (`portals`,
`memberofperipheral`, `baseofperipheral`, `grp`, `_modsrc` — optional),
and the children of the first `SFRMode` of its `SFRModeList`. -/
structure SFRDef : Type where
  addrAttr : String
  name : String
  cname : String
  mclr : String
  portals : Option String
  memberofperipheral : Option String
  baseofperipheral : Option String
  grp : Option String
  modsrc : Option String
  mode : List ModeEntry
deriving DecidableEq, Repr

/-- The `_modsrc` lookup (main.rs lines 148–158): four pin-select module
names map to `"PPS"`, the deep-sleep-controller module maps to
`"DSCTRL"`, anything else to the empty string. -/
def modsrcLookup (ms : String) : String :=
  if ms = "DOS-01618_RPINRx.Module" ∨ ms = "DOS-01618_RPORx.Module" ∨
     ms = "DOS-01423_RPINRx.Module" ∨ ms = "DOS-01423_RPORx.Module" then
    "PPS"
  else if ms = "DOS-01475_lpwr_deep_sleep_ctrl_v2.Module" then "DSCTRL"
  else ""

/-- Characters of a string up to (excluding) the first space: the element
`words.get(0)` of `cperi.split(' ')` in main.rs lines 162–165.  Rust
`split(' ')` never yields an empty iterator, so the first word always
exists. -/
def takeUntilSpace : List Char → List Char
  | [] => []
  | c :: cs => if c = ' ' then [] else c :: takeUntilSpace cs

/-- First whitespace-delimited token of a string (empty when the string is
empty or starts with a space). -/
def firstWord (s : String) : String := String.mk (takeUntilSpace s.data)

/-- The peripheral-name inference of `analyze_periph` (main.rs
lines 135–168): `memberofperipheral` is discarded when empty; the first
present attribute among `baseofperipheral`, the filtered
`memberofperipheral`, `grp`, `_modsrc` (through `modsrcLookup`) provides
the candidate, a panic results when none is present; the candidate is cut
at its first space and a panic results when the remaining label is
empty. -/
def guess_peri (a : SFRDef) : Except String String :=
  let mop : Option String :=
    match a.memberofperipheral with
    | some m => if m.length = 0 then none else some m
    | none => none
  let cperi? : Except String String :=
    match a.baseofperipheral with
    | some bop => .ok bop
    | none =>
      match mop with
      | some m => .ok m
      | none =>
        match a.grp with
        | some g => .ok g
        | none =>
          match a.modsrc with
          | some ms => .ok (modsrcLookup ms)
          | none => .error ("missing peripheral for " ++ a.name)
  match cperi? with
  | .error e => .error e
  | .ok cperi =>
    let cperi := firstWord cperi
    if cperi.length = 0 then .error ("empty peripheral info for " ++ a.name)
    else .ok cperi

/-- The register-synthesis block of `analyze_periph` (main.rs
lines 200–221): emit the base register unconditionally, then `CLR`, `SET`
and `INV` variants at offsets `+4`, `+8`, `+0xc` (u32 additions), each
with reset value 0, according to the decoded portal flags. -/
def synthesize (out : List Peripheral) (name : String)
    (offset reset : Nat) (clr set inv : Bool) (mode : List ModeEntry) :
    Except String (List Peripheral) :=
  match add_register out name offset reset mode with
  | .error e => .error e
  | .ok out1 =>
    match (if clr then
             add_register out1 (name ++ "CLR") ((offset + 4) % u32Mod) 0 mode
           else .ok out1) with
    | .error e => .error e
    | .ok out2 =>
      match (if set then
               add_register out2 (name ++ "SET") ((offset + 8) % u32Mod) 0 mode
             else .ok out2) with
      | .error e => .error e
      | .ok out3 =>
        if inv then
          add_register out3 (name ++ "INV") ((offset + 12) % u32Mod) 0 mode
        else .ok out3

/-- The fresh peripheral element opened on a label change (main.rs
lines 178–190). -/
def newPeripheral (peri : String) (baseAddr : Nat) : Peripheral :=
  { name := peri
    description := peri ++ " peripheral"
    baseAddress := baseAddr
    registers := [] }

/-- The tail of the `SFRDef` branch after the group-transition block
(main.rs lines 193–221): assert `base_addr ≤ addr`, compute the offset
`addr - base_addr`, synthesize the register(s) and return the threaded
`(peri, base_addr)` state with the extended output. -/
def emitSFR (peri : String) (base_addr : Nat) (out : List Peripheral)
    (a : SFRDef) (addr reset : Nat) (clr set inv : Bool) :
    Except String (String × Nat × List Peripheral) :=
  if base_addr ≤ addr then
    match synthesize out a.name (addr - base_addr) reset clr set inv
        a.mode with
    | .error e => .error e
    | .ok out' => .ok (peri, base_addr, out')
  else .error "assertion failed: base_addr <= addr"

/-- Processing of one `SFRDef` child inside the loop of `analyze_periph`
(main.rs lines 106–222), threading the `(peri, base_addr)` state and the
output peripheral list.  In source order: parse `_addr` and OR it with the
KSEG1 mask `0xA000_0000`; assert `name = cname`; default a missing
`portals` attribute to `"- - -"` and decode it; decode the `mclr` reset
pattern; infer the peripheral label; on a label change assert
`base_addr < addr`, open a new peripheral with base address `addr` and
continue with the updated state; finally `emitSFR`. -/
def processSFR (peri : String) (base_addr : Nat) (out : List Peripheral)
    (a : SFRDef) : Except String (String × Nat × List Peripheral) :=
  match parse_u32 a.addrAttr with
  | none => .error ("cannot parse _addr attribute " ++ a.addrAttr)
  | some addrRaw =>
    let addr := addrRaw ||| 0xA0000000
    if a.name = a.cname then
      let portals := a.portals.getD "- - -"
      match decode_portals portals with
      | none => .error ("unexpected portals attribute: " ++ portals)
      | some (clr, set, inv) =>
        match decode_reset a.mclr with
        | none => .error ("cannot parse mclr attribute string " ++ a.mclr)
        | some reset =>
          match guess_peri a with
          | .error e => .error e
          | .ok cperi =>
            if cperi ≠ peri then
              if base_addr < addr then
                emitSFR cperi addr (out ++ [newPeripheral cperi addr]) a
                  addr reset clr set inv
              else .error "assertion failed: base_addr < addr"
            else emitSFR peri base_addr out a addr reset clr set inv
    else .error ("assertion failed: name = cname for " ++ a.name)

/-- A child of an `SFRDataSector` element: an `SFRDef` or any other
element, which the loop of `analyze_periph` skips (main.rs line 106). -/
inductive SectorEntry : Type
  | sfr (a : SFRDef)
  | otherElem (name : String)

/-- The loop of `analyze_periph` (main.rs lines 105–224) over the sector's
children, starting from `peri = ""`, `base_addr = 0` (lines 103–104). -/
def analyzeLoop (peri : String) (base_addr : Nat) (out : List Peripheral) :
    List SectorEntry → Except String (String × Nat × List Peripheral)
  | [] => .ok (peri, base_addr, out)
  | .otherElem _ :: rest => analyzeLoop peri base_addr out rest
  | .sfr a :: rest =>
    match processSFR peri base_addr out a with
    | .error e => .error e
    | .ok (peri', base', out') => analyzeLoop peri' base' out' rest

/-- `analyze_periph` (main.rs lines 102–225) applied to the children of
one qualifying `SFRDataSector`, extended with the peripherals already
emitted for earlier sectors. -/
def analyze_periph (entries : List SectorEntry) (out : List Peripheral) :
    Except String (String × Nat × List Peripheral) :=
  analyzeLoop "" 0 out entries

/-! ### Statement vocabulary and fixtures

Mathematical value functions and predicates used only to *state*
properties of the embedded code, plus concrete test fixtures. -/

/-- Value of a list of binary digit characters, most significant first
(specification-side value function). -/
def bitsVal (l : List Char) : Nat :=
  l.foldl (fun a c => 2 * a + (if c = '1' then 1 else 0)) 0

/-- A well-formed SVD bit range for a 32-bit register: the printed pair
satisfies `lsb ≤ msb < 32`. -/
def wellFormedBitRange (f : Field) : Prop :=
  f.lsb ≤ f.msb ∧ f.msb < 32

/-- First non-empty string in a list of optional hints
(specification-side helper for the fallback chain of claim C3 read
literally: every hint, not only `memberofperipheral`, is skipped when it
is empty). -/
def firstNonEmpty : List (Option String) → Option String
  | [] => none
  | none :: rest => firstNonEmpty rest
  | some s :: rest => if s.length = 0 then firstNonEmpty rest else some s

/-- Claim C3 read literally: the owning peripheral name is the first
*non-empty* hint among `baseofperipheral`, `memberofperipheral`, `grp`
and the `_modsrc` lookup; the conversion fails only when no rule yields a
non-empty name.  (This is the claim's wording, to be compared with
`guess_peri`, which is translated from the code.) -/
def guessPeriClaim (a : SFRDef) : Except String String :=
  match firstNonEmpty
      [a.baseofperipheral, a.memberofperipheral, a.grp,
       a.modsrc.map modsrcLookup] with
  | some s => .ok s
  | none => .error ("missing peripheral for " ++ a.name)

/-- Grouping invariant: the base addresses already emitted are strictly
increasing and the tracked `base_addr` is an upper bound of the last
one. -/
def basesOk (base_addr : Nat) (out : List Peripheral) : Prop :=
  List.Chain' (· < ·) (out.map Peripheral.baseAddress) ∧
  ∀ b, (out.map Peripheral.baseAddress).getLast? = some b → b ≤ base_addr

/-- Fixture: an `SFRDef` whose `baseofperipheral` hint is present but
empty while its `grp` hint is `"FOO"`. -/
def exEmptyBop : SFRDef :=
  { addrAttr := "0x1000", name := "EXR", cname := "EXR", mclr := "0",
    portals := none, memberofperipheral := none,
    baseofperipheral := some "", grp := some "FOO", modsrc := none,
    mode := [] }

/-- Fixture: a plain `SFRDef` with no `portals` attribute, one 4-bit
field, and a `grp` hint. -/
def exNoPortals : SFRDef :=
  { addrAttr := "0x1000", name := "R1", cname := "R1", mclr := "1-0xu",
    portals := none, memberofperipheral := some "",
    baseofperipheral := none, grp := some "FOO", modsrc := none,
    mode := [.fieldDef "A" "A" "4"] }

/-! ### Helper lemmas -/

/-- The accumulator of the binary value fold never decreases. -/
theorem bitsFold_le (l : List Char) (acc : Nat) :
    acc ≤ l.foldl (fun a c => 2 * a + (if c = '1' then 1 else 0)) acc := by
  induction l generalizing acc with
  | nil => exact Nat.le_refl _
  | cons c cs ih =>
    exact Nat.le_trans (by omega) (ih (2 * acc + (if c = '1' then 1 else 0)))

/-- `parseDigits` in base 2 computes the binary value fold on lists of
binary digit characters that do not overflow `u32`. -/
theorem parseDigits_bin (l : List Char) (acc : Nat)
    (hall : ∀ c ∈ l, c = '0' ∨ c = '1')
    (hlt : l.foldl (fun a c => 2 * a + (if c = '1' then 1 else 0)) acc
             < u32Mod) :
    parseDigits 2 binDigitVal l acc =
      some (l.foldl (fun a c => 2 * a + (if c = '1' then 1 else 0)) acc) := by
  induction l generalizing acc with
  | nil => rfl
  | cons c cs ih =>
    have hc := hall c (by simp)
    have hd : binDigitVal c = some (if c = '1' then 1 else 0) := by
      rcases hc with h | h <;> simp [binDigitVal, h]
    have hstep : acc * 2 + (if c = '1' then 1 else 0) =
        2 * acc + (if c = '1' then 1 else 0) := by omega
    have hv : 2 * acc + (if c = '1' then 1 else 0) ≤
        cs.foldl (fun a c => 2 * a + (if c = '1' then 1 else 0))
          (2 * acc + (if c = '1' then 1 else 0)) := bitsFold_le _ _
    have hlt' : 2 * acc + (if c = '1' then 1 else 0) < u32Mod := by
      simp only [List.foldl] at hlt
      omega
    simp only [parseDigits, hd, hstep, if_pos hlt', List.foldl]
    exact ih _ (fun c hmem => hall c (by simp [hmem])) (by simpa using hlt)

/-- `parseDigits` never returns a value `≥ 2 ^ 32` when started below. -/
theorem parseDigits_lt (radix : Nat) (dv : Char → Option Nat)
    (l : List Char) (acc n : Nat) (hacc : acc < u32Mod)
    (h : parseDigits radix dv l acc = some n) : n < u32Mod := by
  induction l generalizing acc with
  | nil =>
    simp only [parseDigits, Option.some.injEq] at h
    omega
  | cons c cs ih =>
    simp only [parseDigits] at h
    cases hdv : dv c with
    | none => simp [hdv] at h
    | some d =>
      simp only [hdv] at h
      by_cases hv : acc * radix + d < u32Mod
      · rw [if_pos hv] at h
        exact ih _ hv h
      · rw [if_neg hv] at h
        exact absurd h (by simp)

/-- `fromStrRadix` never returns a value `≥ 2 ^ 32`. -/
theorem fromStrRadix_lt (radix : Nat) (dv : Char → Option Nat)
    (cs : List Char) (n : Nat)
    (h : fromStrRadix radix dv cs = some n) : n < u32Mod := by
  cases cs with
  | nil => exact absurd h (by simp [fromStrRadix])
  | cons c rest =>
    simp only [fromStrRadix] at h
    by_cases hp : c = '+'
    · rw [if_pos hp] at h
      by_cases hr : rest = []
      · rw [if_pos hr] at h; exact absurd h (by simp)
      · rw [if_neg hr] at h
        exact parseDigits_lt _ _ _ _ _ (by norm_num [u32Mod]) h
    · rw [if_neg hp] at h
      exact parseDigits_lt _ _ _ _ _ (by norm_num [u32Mod]) h

/-- A cleaned reset character is a binary digit whenever the original is
a binary digit or one of the placeholders. -/
theorem cleanResetChar_bin (c : Char)
    (h : c = '0' ∨ c = '1' ∨ c = '-' ∨ c = 'x' ∨ c = 'u') :
    cleanResetChar c = '0' ∨ cleanResetChar c = '1' := by
  rcases h with h | h | h | h | h <;> subst h <;> simp [cleanResetChar]

/-- Appending a register to the output reaches exactly the last
peripheral. -/
theorem pushToLast_append (ps : List Peripheral) (p : Peripheral)
    (reg : Register) :
    pushToLast (ps ++ [p]) reg =
      some (ps ++ [{ p with registers := p.registers ++ [reg] }]) := by
  induction ps with
  | nil => rfl
  | cons q qs ih =>
    cases qs with
    | nil =>
      simp only [List.cons_append, List.nil_append] at ih ⊢
      simp [pushToLast, ih]
    | cons r rs =>
      simp only [List.cons_append] at ih ⊢
      simp [pushToLast, ih]

/-- `add_register` on an output ending in peripheral `p` appends the
built register to `p`. -/
theorem add_register_append (ps : List Peripheral) (p : Peripheral)
    (name : String) (offset reset : Nat) (mode : List ModeEntry)
    (fs : List Field) (c : Nat)
    (h : layoutFields mode 0 = .ok (fs, c)) :
    add_register (ps ++ [p]) name offset reset mode =
      .ok (ps ++ [{ p with registers :=
        p.registers ++ [mkRegister name offset reset fs c] }]) := by
  simp [add_register, h, pushToLast_append]

/-! ### Claim theorems -/

/-- **C4.** The Field Layout Builder maintains a bit-position cursor
starting at 0: a field-definition entry of width `w` is assigned the bit
range `[cursor + w - 1 : cursor]` and advances the cursor by `w`; an
adjustment entry advances the cursor by its stated offset without
emitting a field; two fields of widths 4 and 4 yield ranges `[3:0]` then
`[7:4]`, and with an adjustment of 4 between them the second field's
range is `[11:8]`. -/
theorem layout_cursor_spec :
    (∀ (nm cn nz : String) (rest : List ModeEntry) (bitpos w : Nat)
        (fs : List Field) (c : Nat),
        parse_u32 nz = some w → 1 ≤ w → bitpos + w < u32Mod →
        layoutFields rest (bitpos + w) = .ok (fs, c) →
        layoutFields (.fieldDef nm cn nz :: rest) bitpos =
          .ok (⟨cn, bitpos + w - 1, bitpos⟩ :: fs, c)) ∧
    (∀ (off : String) (rest : List ModeEntry) (bitpos o : Nat),
        parse_u32 off = some o → bitpos + o < u32Mod →
        layoutFields (.adjustPoint off :: rest) bitpos =
          layoutFields rest (bitpos + o)) ∧
    layoutFields [.fieldDef "A" "A" "4", .fieldDef "B" "B" "4"] 0 =
      .ok ([⟨"A", 3, 0⟩, ⟨"B", 7, 4⟩], 8) ∧
    layoutFields [.fieldDef "A" "A" "4", .adjustPoint "4",
                  .fieldDef "B" "B" "4"] 0 =
      .ok ([⟨"A", 3, 0⟩, ⟨"B", 11, 8⟩], 12) := by
  refine ⟨?_, ?_, by rfl, by rfl⟩
  · intro nm cn nz rest bitpos w fs c hnz hw hlt hrest
    have hu : u32Mod = 4294967296 := rfl
    have hmod : (bitpos + w) % u32Mod = bitpos + w := Nat.mod_eq_of_lt hlt
    have hmsb : (bitpos + w + (u32Mod - 1)) % u32Mod = bitpos + w - 1 := by
      rw [hu] at hlt ⊢
      omega
    simp only [layoutFields, hnz, hmod, hrest, hmsb]
  · intro off rest bitpos o ho hlt
    have hmod : (bitpos + o) % u32Mod = bitpos + o := Nat.mod_eq_of_lt hlt
    simp only [layoutFields, ho, hmod]

/-- Witness for C4: a width-3 field processed at cursor 5 is assigned
`[7:5]` and leaves the cursor at 8. -/
theorem layout_cursor_spec_witness :
    layoutFields [.fieldDef "X" "X" "3"] 5 = .ok ([⟨"X", 7, 5⟩], 8) :=
  layout_cursor_spec.1 "X" "X" "3" [] 5 3 [] 8 (by rfl) (by norm_num)
    (by norm_num [u32Mod]) (by rfl)

/-- **C5.** `decode_reset` replaces every placeholder character (`'-'`,
`'x'`, `'u'`) with the bit `'0'` and parses the rest as base-2: a string
of binary digits and placeholders decodes to the binary value of the
cleaned string, `"1-0xu"` yields 16, and a cleaned string that is not
valid binary (or empty) fails. -/
theorem decode_reset_spec :
    (∀ l : List Char, l ≠ [] →
        (∀ c ∈ l, c = '0' ∨ c = '1' ∨ c = '-' ∨ c = 'x' ∨ c = 'u') →
        bitsVal (l.map cleanResetChar) < u32Mod →
        decode_reset (String.mk l) = some (bitsVal (l.map cleanResetChar))) ∧
    decode_reset "1-0xu" = some 16 ∧
    decode_reset "1-02" = none ∧
    decode_reset "" = none := by
  refine ⟨?_, by rfl, by rfl, by rfl⟩
  intro l hne hall hlt
  show fromStrRadix 2 binDigitVal (l.map cleanResetChar) = _
  cases l with
  | nil => exact absurd rfl hne
  | cons c cs =>
    have hc : cleanResetChar c = '0' ∨ cleanResetChar c = '1' :=
      cleanResetChar_bin c (hall c (by simp))
    have hplus : ¬ cleanResetChar c = '+' := by
      rcases hc with h | h <;> simp [h]
    simp only [List.map_cons, fromStrRadix, if_neg hplus]
    exact parseDigits_bin _ 0
      (by
        intro x hx
        simp only [List.mem_cons, List.mem_map] at hx
        rcases hx with h | ⟨y, hy, rfl⟩
        · subst h; exact hc
        · exact cleanResetChar_bin y (hall y (by simp [hy])))
      (by simpa [bitsVal] using hlt)

/-- Witness for C5: `"10"` (no placeholders needed) decodes to 2. -/
theorem decode_reset_spec_witness :
    decode_reset (String.mk ['1', '0']) =
      some (bitsVal (['1', '0'].map cleanResetChar)) :=
  decode_reset_spec.1 ['1', '0'] (by simp) (by decide) (by decide)

/-- **C6.** `parse_u32` parses the characters after the prefix as
hexadecimal when the string starts with `"0x"` and the whole string as
decimal otherwise, failing when neither pattern parses; every parsed
value fits in `u32`; `"0x1A"` yields 26 and `"26"` yields 26. -/
theorem parse_u32_spec :
    (∀ rest : List Char,
        parse_u32 (String.mk ('0' :: 'x' :: rest)) =
          fromStrRadix 16 hexDigitVal rest) ∧
    (∀ l : List Char, (∀ rest : List Char, l ≠ '0' :: 'x' :: rest) →
        parse_u32 (String.mk l) = fromStrRadix 10 decDigitVal l) ∧
    (∀ (s : String) (n : Nat), parse_u32 s = some n → n < u32Mod) ∧
    parse_u32 "0x1A" = some 26 ∧ parse_u32 "26" = some 26 ∧
    parse_u32 "0x1G" = none ∧ parse_u32 "2a" = none ∧
    parse_u32 "" = none := by
  refine ⟨?_, ?_, ?_, by rfl, by rfl, by rfl, by rfl, by rfl⟩
  · intro rest; rfl
  · intro l h
    unfold parse_u32
    split
    · next rest heq => exact absurd heq (h rest)
    · rfl
  · intro s n h
    unfold parse_u32 at h
    split at h
    · exact fromStrRadix_lt _ _ _ _ h
    · exact fromStrRadix_lt _ _ _ _ h

/-- Witness for C6: `"26"` parses to 26, which is below `2 ^ 32`. -/
theorem parse_u32_spec_witness : parse_u32 "26" = some 26 ∧ 26 < u32Mod :=
  ⟨by rfl, parse_u32_spec.2.2.1 "26" 26 (by rfl)⟩

/-- **C7.** `decode_portals` recognizes exactly the three literal strings
`"CLR SET INV"` (all three flags), `"CLR - -"` (clear only) and `"- - -"`
(none), and fails on every other string instead of defaulting. -/
theorem decode_portals_spec :
    decode_portals "CLR SET INV" = some (true, true, true) ∧
    decode_portals "CLR - -" = some (true, false, false) ∧
    decode_portals "- - -" = some (false, false, false) ∧
    ∀ s : String, s ≠ "CLR SET INV" → s ≠ "CLR - -" → s ≠ "- - -" →
      decode_portals s = none := by
  refine ⟨by rfl, by rfl, by rfl, ?_⟩
  intro s h1 h2 h3
  simp [decode_portals, h1, h2, h3]

/-- Witness for C7: the string `"SET"` alone is rejected. -/
theorem decode_portals_spec_witness : decode_portals "SET" = none :=
  decode_portals_spec.2.2.2 "SET" (by decide) (by decide) (by decide)

/-- **C8.** A `fields` element is attached to an emitted register if and
only if the layout's final cursor is positive: `add_register` appends the
register built by `mkRegister`, whose `fields` component is `none`
exactly when the final cursor is 0; a mode block of one `AdjustPoint` of
offset 0 gives a register without fields, one with a width-4 field gives
a register with fields. -/
theorem fields_iff_cursor_spec :
    (∀ (ps : List Peripheral) (p : Peripheral) (name : String)
        (offset reset : Nat) (mode : List ModeEntry) (fs : List Field)
        (c : Nat),
        layoutFields mode 0 = .ok (fs, c) →
        add_register (ps ++ [p]) name offset reset mode =
          .ok (ps ++ [{ p with registers :=
            p.registers ++ [mkRegister name offset reset fs c] }]) ∧
        ((mkRegister name offset reset fs c).fields = none ↔ c = 0) ∧
        (0 < c → (mkRegister name offset reset fs c).fields = some fs)) ∧
    add_register [newPeripheral "P" 0] "R" 0 7 [.adjustPoint "0"] =
      .ok [{ newPeripheral "P" 0 with
             registers := [mkRegister "R" 0 7 [] 0] }] ∧
    (mkRegister "R" 0 7 [] 0).fields = none ∧
    add_register [newPeripheral "P" 0] "R" 0 7 [.fieldDef "A" "A" "4"] =
      .ok [{ newPeripheral "P" 0 with
             registers := [mkRegister "R" 0 7 [⟨"A", 3, 0⟩] 4] }] ∧
    (mkRegister "R" 0 7 [⟨"A", 3, 0⟩] 4).fields = some [⟨"A", 3, 0⟩] := by
  refine ⟨?_, by rfl, by rfl, by rfl, by rfl⟩
  intro ps p name offset reset mode fs c h
  refine ⟨add_register_append ps p name offset reset mode fs c h, ?_, ?_⟩
  · constructor
    · intro hf
      by_contra hc
      simp [mkRegister, Nat.pos_of_ne_zero hc] at hf
    · intro hc; simp [mkRegister, hc]
  · intro hc; simp [mkRegister, hc]

/-- Witness for C8: a mode block with a single 1-bit field makes
`add_register` attach a `fields` element. -/
theorem fields_iff_cursor_spec_witness :
    add_register ([] ++ [newPeripheral "Q" 4]) "S" 8 3 [.fieldDef "F" "F" "1"] =
      .ok ([] ++ [{ newPeripheral "Q" 4 with
        registers := (newPeripheral "Q" 4).registers ++
          [mkRegister "S" 8 3 [⟨"F", 0, 0⟩] 1] }]) ∧
    (mkRegister "S" 8 3 [⟨"F", 0, 0⟩] 1).fields = some [⟨"F", 0, 0⟩] := by
  have h := fields_iff_cursor_spec.1 [] (newPeripheral "Q" 4) "S" 8 3
    [.fieldDef "F" "F" "1"] [⟨"F", 0, 0⟩] 1 (by rfl)
  exact ⟨h.1, h.2.2 (by norm_num)⟩

/-- **C10.** A field-definition entry of declared width 0 processed at
cursor 0 makes the most-significant-bit computation
`cursor + width - 1` wrap modulo `2 ^ 32` to 4294967295: the layout loop
accepts it without any guard, the emitted field prints the bit range
`"[4294967295:0]"`, which is not a well-formed 32-bit bit range, and the
cursor stays at 0. -/
theorem zero_width_field_spec :
    parse_u32 "0" = some 0 ∧
    layoutFields [.fieldDef "F" "F" "0", .fieldDef "G" "G" "4"] 0 =
      .ok ([⟨"F", 4294967295, 0⟩, ⟨"G", 3, 0⟩], 4) ∧
    Field.bitRange ⟨"F", 4294967295, 0⟩ = "[4294967295:0]" ∧
    (wellFormedBitRange ⟨"F", 4294967295, 0⟩ ↔ False) ∧
    (4294967295 : Nat) = (0 + 0 + (u32Mod - 1)) % u32Mod := by
  refine ⟨by rfl, by rfl, by rfl, ?_, by rfl⟩
  constructor
  · intro h
    exact absurd h.2 (by norm_num)
  · intro h
    exact h.elim

/-- General shape of `synthesize` on an output ending in peripheral `p`:
the base register followed by the variants selected by the portal
flags. -/
theorem synthesize_append (ps : List Peripheral) (p : Peripheral)
    (name : String) (offset reset : Nat) (clr set inv : Bool)
    (mode : List ModeEntry) (fs : List Field) (c : Nat)
    (h : layoutFields mode 0 = .ok (fs, c)) (hoff : offset + 12 < u32Mod) :
    synthesize (ps ++ [p]) name offset reset clr set inv mode =
      .ok (ps ++ [{ p with registers := p.registers ++
        ([mkRegister name offset reset fs c] ++
         (if clr then [mkRegister (name ++ "CLR") (offset + 4) 0 fs c]
          else []) ++
         (if set then [mkRegister (name ++ "SET") (offset + 8) 0 fs c]
          else []) ++
         (if inv then [mkRegister (name ++ "INV") (offset + 12) 0 fs c]
          else [])) }]) := by
  have hu : u32Mod = 4294967296 := rfl
  have m4 : (offset + 4) % u32Mod = offset + 4 :=
    Nat.mod_eq_of_lt (by rw [hu] at hoff ⊢; omega)
  have m8 : (offset + 8) % u32Mod = offset + 8 :=
    Nat.mod_eq_of_lt (by rw [hu] at hoff ⊢; omega)
  have m12 : (offset + 12) % u32Mod = offset + 12 :=
    Nat.mod_eq_of_lt (by rw [hu] at hoff ⊢; omega)
  have key : ∀ (qs : List Peripheral) (q : Peripheral) (nm : String)
      (off rst : Nat),
      add_register (qs ++ [q]) nm off rst mode =
        .ok (qs ++ [{ q with registers :=
          q.registers ++ [mkRegister nm off rst fs c] }]) :=
    fun qs q nm off rst => add_register_append qs q nm off rst mode fs c h
  cases clr <;> cases set <;> cases inv <;>
    simp [synthesize, key, m4, m8, m12, List.append_assoc]

/-- **C1.** A portals value of `"CLR SET INV"` decodes to all three
flags, and then the Register Synthesizer emits exactly four output
registers at offsets `offset`, `offset + 4`, `offset + 8`, `offset + 0xC`,
the last three named `<name>CLR`, `<name>SET`, `<name>INV`, each with
reset value 0 regardless of the base register's reset value and with the
same field layout as the base register; a portals value of `"- - -"`
decodes to no flags and exactly one output register is emitted. -/
theorem portals_synthesis_spec :
    decode_portals "CLR SET INV" = some (true, true, true) ∧
    (∀ (ps : List Peripheral) (p : Peripheral) (name : String)
        (offset reset : Nat) (mode : List ModeEntry) (fs : List Field)
        (c : Nat),
        layoutFields mode 0 = .ok (fs, c) → offset + 12 < u32Mod →
        synthesize (ps ++ [p]) name offset reset true true true mode =
          .ok (ps ++ [{ p with registers := p.registers ++
            [mkRegister name offset reset fs c,
             mkRegister (name ++ "CLR") (offset + 4) 0 fs c,
             mkRegister (name ++ "SET") (offset + 8) 0 fs c,
             mkRegister (name ++ "INV") (offset + 12) 0 fs c] }])) ∧
    decode_portals "- - -" = some (false, false, false) ∧
    (∀ (ps : List Peripheral) (p : Peripheral) (name : String)
        (offset reset : Nat) (mode : List ModeEntry) (fs : List Field)
        (c : Nat),
        layoutFields mode 0 = .ok (fs, c) →
        synthesize (ps ++ [p]) name offset reset false false false mode =
          .ok (ps ++ [{ p with registers :=
            p.registers ++ [mkRegister name offset reset fs c] }])) := by
  refine ⟨by rfl, ?_, by rfl, ?_⟩
  · intro ps p name offset reset mode fs c h hoff
    have := synthesize_append ps p name offset reset true true true mode
      fs c h hoff
    simpa using this
  · intro ps p name offset reset mode fs c h
    have e1 := add_register_append ps p name offset reset mode fs c h
    simp [synthesize, e1]

/-- Witness for C1: a base register at offset 0 with reset value 5 and a
single 4-bit field produces the four registers `R`, `RCLR`, `RSET`,
`RINV` at offsets 0, 4, 8, 12 with reset values 5, 0, 0, 0. -/
theorem portals_synthesis_spec_witness :
    synthesize ([] ++ [newPeripheral "P" 2684354560]) "R" 0 5 true true true
        [.fieldDef "A" "A" "4"] =
      .ok ([] ++ [{ newPeripheral "P" 2684354560 with registers :=
        (newPeripheral "P" 2684354560).registers ++
          [mkRegister "R" 0 5 [⟨"A", 3, 0⟩] 4,
           mkRegister ("R" ++ "CLR") (0 + 4) 0 [⟨"A", 3, 0⟩] 4,
           mkRegister ("R" ++ "SET") (0 + 8) 0 [⟨"A", 3, 0⟩] 4,
           mkRegister ("R" ++ "INV") (0 + 12) 0 [⟨"A", 3, 0⟩] 4] }]) :=
  portals_synthesis_spec.2.1 [] (newPeripheral "P" 2684354560) "R" 0 5
    [.fieldDef "A" "A" "4"] [⟨"A", 3, 0⟩] 4 (by rfl) (by norm_num [u32Mod])

/-- **C9.** A qualifying register descriptor with no `portals` attribute
is processed exactly like one whose portals value is `"- - -"`: the
defaulted string decodes to no flags, and a concrete descriptor without
the attribute converts successfully into exactly one output register. -/
theorem missing_portals_spec (peri : String) (base_addr : Nat)
    (out : List Peripheral) (a : SFRDef) (h : a.portals = none) :
    processSFR peri base_addr out a =
      processSFR peri base_addr out { a with portals := some "- - -" } ∧
    a.portals.getD "- - -" = "- - -" ∧
    decode_portals "- - -" = some (false, false, false) ∧
    processSFR "" 0 [] exNoPortals = .ok ("FOO", 0xA0001000,
      [{ name := "FOO", description := "FOO peripheral",
         baseAddress := 0xA0001000,
         registers := [mkRegister "R1" 0 16 [⟨"A", 3, 0⟩] 4] }]) := by
  have hg : guess_peri { a with portals := some "- - -" } = guess_peri a :=
    rfl
  have he : ∀ (peri' : String) (base' : Nat) (out' : List Peripheral)
      (addr reset : Nat) (clr set inv : Bool),
      emitSFR peri' base' out' { a with portals := some "- - -" }
          addr reset clr set inv =
        emitSFR peri' base' out' a addr reset clr set inv :=
    fun _ _ _ _ _ _ _ _ => rfl
  refine ⟨?_, by simp [h], by rfl, by rfl⟩
  simp [processSFR, h, hg, he]

/-- Witness for C9: the concrete portals-free descriptor `exNoPortals` is
processed identically to its `"- - -"` twin. -/
theorem missing_portals_spec_witness :
    processSFR "" 0 [] exNoPortals =
      processSFR "" 0 [] { exNoPortals with portals := some "- - -" } :=
  (missing_portals_spec "" 0 [] exNoPortals (by rfl)).1

/-- Counterexample for C3: the descriptor `exEmptyBop` carries a present
but *empty* `baseofperipheral` hint and the non-empty `grp` hint
`"FOO"`.  Read as a first-non-empty-match fallback (`guessPeriClaim`),
the peripheral name would resolve to `"FOO"`; the code (`guess_peri`)
instead takes the empty hint and aborts fatally. -/
theorem peri_fallback_counterexample :
    guessPeriClaim exEmptyBop = .ok "FOO" ∧
    guess_peri exEmptyBop = .error "empty peripheral info for EXR" :=
  ⟨rfl, rfl⟩

/-- **C3 (amended).** The owning peripheral name is inferred by a
fallback chain where the first *present* hint wins — `baseofperipheral`,
then `memberofperipheral` (skipped when it is the empty string), then
`grp`, then the `_modsrc` lookup table — the chosen value is truncated to
its first whitespace-delimited token, and the conversion aborts fatally
when no rule applies or when the chosen token is empty; in particular a
register with an empty `memberofperipheral` hint but a non-empty `grp`
hint resolves to the `grp` hint. -/
theorem peri_fallback_amended (a : SFRDef) :
    (∀ bop, a.baseofperipheral = some bop →
        guess_peri a =
          (if (firstWord bop).length = 0
           then .error ("empty peripheral info for " ++ a.name)
           else .ok (firstWord bop))) ∧
    (∀ m, a.baseofperipheral = none → a.memberofperipheral = some m →
        m.length ≠ 0 →
        guess_peri a =
          (if (firstWord m).length = 0
           then .error ("empty peripheral info for " ++ a.name)
           else .ok (firstWord m))) ∧
    (∀ g, a.baseofperipheral = none →
        (a.memberofperipheral = none ∨ a.memberofperipheral = some "") →
        a.grp = some g →
        guess_peri a =
          (if (firstWord g).length = 0
           then .error ("empty peripheral info for " ++ a.name)
           else .ok (firstWord g))) ∧
    (∀ ms, a.baseofperipheral = none →
        (a.memberofperipheral = none ∨ a.memberofperipheral = some "") →
        a.grp = none → a.modsrc = some ms →
        guess_peri a =
          (if (firstWord (modsrcLookup ms)).length = 0
           then .error ("empty peripheral info for " ++ a.name)
           else .ok (firstWord (modsrcLookup ms)))) ∧
    (a.baseofperipheral = none →
        (a.memberofperipheral = none ∨ a.memberofperipheral = some "") →
        a.grp = none → a.modsrc = none →
        guess_peri a = .error ("missing peripheral for " ++ a.name)) ∧
    modsrcLookup "DOS-01618_RPINRx.Module" = "PPS" ∧
    modsrcLookup "DOS-01475_lpwr_deep_sleep_ctrl_v2.Module" = "DSCTRL" ∧
    modsrcLookup "SomethingElse.Module" = "" := by
  refine ⟨?_, ?_, ?_, ?_, ?_, by rfl, by rfl, by rfl⟩
  · intro bop hb
    simp [guess_peri, hb]
  · intro m hb hm hne
    simp [guess_peri, hb, hm, hne]
  · intro g hb hm hg
    rcases hm with hm | hm <;> simp [guess_peri, hb, hm, hg]
  · intro ms hb hm hg hms
    rcases hm with hm | hm <;> simp [guess_peri, hb, hm, hg, hms]
  · intro hb hm hg hms
    rcases hm with hm | hm <;> simp [guess_peri, hb, hm, hg, hms]

/-- Witness for C3 (amended): `exNoPortals` has no `baseofperipheral`, an
empty `memberofperipheral` and `grp = "FOO"`, and resolves to `"FOO"`. -/
theorem peri_fallback_amended_witness :
    guess_peri exNoPortals =
      (if (firstWord "FOO").length = 0
       then .error ("empty peripheral info for " ++ exNoPortals.name)
       else .ok (firstWord "FOO")) :=
  (peri_fallback_amended exNoPortals).2.2.1 "FOO" (by rfl) (Or.inr (by rfl))
    (by rfl)

/-- `pushToLast` does not change the base addresses of the output. -/
theorem pushToLast_bases (out : List Peripheral) (reg : Register)
    (out' : List Peripheral) (h : pushToLast out reg = some out') :
    out'.map Peripheral.baseAddress = out.map Peripheral.baseAddress := by
  induction out generalizing out' with
  | nil => simp [pushToLast] at h
  | cons p ps ih =>
    cases ps with
    | nil =>
      simp only [pushToLast, Option.some.injEq] at h
      subst h
      rfl
    | cons q qs =>
      simp only [pushToLast] at h
      cases h2 : pushToLast (q :: qs) reg with
      | none => rw [h2] at h; simp at h
      | some o2 =>
        rw [h2] at h
        simp only [Option.map_some', Option.some.injEq] at h
        subst h
        simp [ih o2 h2]

/-- `add_register` does not change the base addresses of the output. -/
theorem add_register_bases (out : List Peripheral) (name : String)
    (offset reset : Nat) (mode : List ModeEntry) (out' : List Peripheral)
    (h : add_register out name offset reset mode = .ok out') :
    out'.map Peripheral.baseAddress = out.map Peripheral.baseAddress := by
  unfold add_register at h
  cases hl : layoutFields mode 0 with
  | error e => rw [hl] at h; simp at h
  | ok fc =>
    rw [hl] at h
    obtain ⟨fs, c⟩ := fc
    cases hp : pushToLast out (mkRegister name offset reset fs c) with
    | none => simp only [hp] at h; simp at h
    | some o =>
      simp only [hp, Except.ok.injEq] at h
      subst h
      exact pushToLast_bases out _ _ hp

/-- A conditionally executed `add_register` does not change the base
addresses of the output. -/
theorem cond_add_register_bases (b : Bool) (out : List Peripheral)
    (nm : String) (off rst : Nat) (mode : List ModeEntry)
    (out' : List Peripheral)
    (h : (if b then add_register out nm off rst mode else .ok out) =
      .ok out') :
    out'.map Peripheral.baseAddress = out.map Peripheral.baseAddress := by
  cases b
  · simp only [if_neg, Bool.false_eq_true, if_false, Except.ok.injEq] at h
    subst h
    rfl
  · exact add_register_bases out nm off rst mode out' (by simpa using h)

/-- `synthesize` does not change the base addresses of the output. -/
theorem synthesize_bases (out : List Peripheral) (name : String)
    (offset reset : Nat) (clr set inv : Bool) (mode : List ModeEntry)
    (out' : List Peripheral)
    (h : synthesize out name offset reset clr set inv mode = .ok out') :
    out'.map Peripheral.baseAddress = out.map Peripheral.baseAddress := by
  unfold synthesize at h
  cases h1 : add_register out name offset reset mode with
  | error e => rw [h1] at h; simp at h
  | ok out1 =>
    rw [h1] at h
    simp only [] at h
    cases h2 : (if clr then
        add_register out1 (name ++ "CLR") ((offset + 4) % u32Mod) 0 mode
      else .ok out1) with
    | error e => rw [h2] at h; simp at h
    | ok out2 =>
      rw [h2] at h
      simp only [] at h
      cases h3 : (if set then
          add_register out2 (name ++ "SET") ((offset + 8) % u32Mod) 0 mode
        else .ok out2) with
      | error e => rw [h3] at h; simp at h
      | ok out3 =>
        rw [h3] at h
        simp only [] at h
        rw [cond_add_register_bases inv out3 (name ++ "INV")
              ((offset + 12) % u32Mod) 0 mode out' h,
            cond_add_register_bases set out2 (name ++ "SET")
              ((offset + 8) % u32Mod) 0 mode out3 h3,
            cond_add_register_bases clr out1 (name ++ "CLR")
              ((offset + 4) % u32Mod) 0 mode out2 h2,
            add_register_bases out name offset reset mode out1 h1]

/-- `emitSFR` under a satisfied `base_addr ≤ addr` assertion: the state
is kept and the output extended through `synthesize` at offset
`addr - base_addr`. -/
theorem emitSFR_eq (peri : String) (base : Nat) (out : List Peripheral)
    (a : SFRDef) (addr reset : Nat) (clr set inv : Bool)
    (hle : base ≤ addr) :
    emitSFR peri base out a addr reset clr set inv =
      Except.map (fun o => (peri, base, o))
        (synthesize out a.name (addr - base) reset clr set inv a.mode) := by
  unfold emitSFR
  rw [if_pos hle]
  cases synthesize out a.name (addr - base) reset clr set inv a.mode <;> rfl

/-- `emitSFR` under a violated `base_addr ≤ addr` assertion fails. -/
theorem emitSFR_neg (peri : String) (base : Nat) (out : List Peripheral)
    (a : SFRDef) (addr reset : Nat) (clr set inv : Bool)
    (hgt : addr < base) :
    emitSFR peri base out a addr reset clr set inv =
      .error "assertion failed: base_addr <= addr" := by
  unfold emitSFR
  rw [if_neg (by omega)]

/-- Destructing a successful `emitSFR`. -/
theorem emitSFR_ok (peri : String) (base : Nat) (out : List Peripheral)
    (a : SFRDef) (addr reset : Nat) (clr set inv : Bool)
    (peri' : String) (base' : Nat) (out' : List Peripheral)
    (h : emitSFR peri base out a addr reset clr set inv =
      .ok (peri', base', out')) :
    peri' = peri ∧ base' = base ∧
      synthesize out a.name (addr - base) reset clr set inv a.mode =
        .ok out' := by
  unfold emitSFR at h
  by_cases hle : base ≤ addr
  · rw [if_pos hle] at h
    cases hs : synthesize out a.name (addr - base) reset clr set inv
        a.mode with
    | error e => rw [hs] at h; simp at h
    | ok o =>
      rw [hs] at h
      simp only [Except.ok.injEq, Prod.mk.injEq] at h
      obtain ⟨h1, h2, h3⟩ := h
      exact ⟨h1.symm, h2.symm, congrArg Except.ok h3⟩
  · rw [if_neg hle] at h
    simp at h

/-- One grouping step preserves the strict ordering invariant. -/
theorem processSFR_basesOk (peri : String) (base : Nat)
    (out : List Peripheral) (a : SFRDef) (peri' : String) (base' : Nat)
    (out' : List Peripheral)
    (h : processSFR peri base out a = .ok (peri', base', out'))
    (hinv : basesOk base out) : basesOk base' out' := by
  unfold processSFR at h
  cases ha : parse_u32 a.addrAttr with
  | none => rw [ha] at h; simp at h
  | some araw =>
    rw [ha] at h
    simp only [] at h
    by_cases hn : a.name = a.cname
    · rw [if_pos hn] at h
      cases hp : decode_portals (a.portals.getD "- - -") with
      | none => rw [hp] at h; simp at h
      | some t =>
        obtain ⟨clr, set, inv⟩ := t
        rw [hp] at h
        simp only [] at h
        cases hr : decode_reset a.mclr with
        | none => rw [hr] at h; simp at h
        | some reset =>
          rw [hr] at h
          simp only [] at h
          cases hg : guess_peri a with
          | error e => rw [hg] at h; simp at h
          | ok cperi =>
            rw [hg] at h
            simp only [] at h
            by_cases hc : cperi ≠ peri
            · rw [if_pos hc] at h
              by_cases hlt : base < araw ||| 0xA0000000
              · rw [if_pos hlt] at h
                obtain ⟨rfl, rfl, hs⟩ :=
                  emitSFR_ok _ _ _ _ _ _ _ _ _ _ _ _ h
                have hb := synthesize_bases _ _ _ _ _ _ _ _ _ hs
                constructor
                · rw [hb]
                  simp only [List.map_append, List.map_cons, List.map_nil]
                  rw [List.chain'_append]
                  refine ⟨hinv.1, List.chain'_singleton _, ?_⟩
                  intro x hx y hy
                  simp only [List.head?_cons, Option.mem_def,
                    Option.some.injEq] at hy
                  subst hy
                  exact Nat.lt_of_le_of_lt (hinv.2 x hx) hlt
                · intro b hbl
                  rw [hb] at hbl
                  simp only [List.map_append, List.map_cons, List.map_nil,
                    List.getLast?_concat, Option.some.injEq] at hbl
                  subst hbl
                  exact Nat.le_refl _
              · rw [if_neg hlt] at h
                simp at h
            · rw [if_neg hc] at h
              obtain ⟨rfl, rfl, hs⟩ := emitSFR_ok _ _ _ _ _ _ _ _ _ _ _ _ h
              have hb := synthesize_bases _ _ _ _ _ _ _ _ _ hs
              exact ⟨hb ▸ hinv.1, fun b hbl => hinv.2 b (hb ▸ hbl)⟩
    · rw [if_neg hn] at h
      simp at h

/-- The grouping loop preserves the strict ordering invariant. -/
theorem analyzeLoop_basesOk (es : List SectorEntry) (peri : String)
    (base : Nat) (out : List Peripheral) (peri' : String) (base' : Nat)
    (out' : List Peripheral)
    (h : analyzeLoop peri base out es = .ok (peri', base', out'))
    (hinv : basesOk base out) : basesOk base' out' := by
  induction es generalizing peri base out with
  | nil =>
    simp only [analyzeLoop, Except.ok.injEq, Prod.mk.injEq] at h
    obtain ⟨rfl, rfl, rfl⟩ := h
    exact hinv
  | cons e rest ih =>
    cases e with
    | otherElem n =>
      exact ih peri base out (by simpa [analyzeLoop] using h) hinv
    | sfr a =>
      simp only [analyzeLoop] at h
      cases hp : processSFR peri base out a with
      | error e => rw [hp] at h; simp at h
      | ok st =>
        obtain ⟨p2, b2, o2⟩ := st
        rw [hp] at h
        exact ih p2 b2 o2 h
          (processSFR_basesOk peri base out a p2 b2 o2 hp hinv)

/-- **C2.** Whenever a qualifying register's inferred peripheral label
differs from the active one, a new group is opened whose base address is
the register's physical address, after a fatal assertion that it exceeds
the previous base (`processSFR` errors when `addr ≤ base`); a register
whose label matches the active group is emitted at offset
`addr - base_addr` (fatal when that offset would be negative); and along
any successful run of `analyze_periph` from an empty output the base
addresses of the discovered groups are strictly increasing. -/
theorem grouping_order_spec :
    (∀ (entries : List SectorEntry) (peri' : String) (base' : Nat)
        (out' : List Peripheral),
        analyze_periph entries [] = .ok (peri', base', out') →
        List.Chain' (· < ·) (out'.map Peripheral.baseAddress)) ∧
    (∀ (peri cperi : String) (base : Nat) (out : List Peripheral)
        (a : SFRDef) (araw addr reset : Nat) (clr set inv : Bool),
        parse_u32 a.addrAttr = some araw → addr = araw ||| 0xA0000000 →
        a.name = a.cname →
        decode_portals (a.portals.getD "- - -") = some (clr, set, inv) →
        decode_reset a.mclr = some reset →
        guess_peri a = .ok cperi → cperi ≠ peri →
        (addr ≤ base →
          processSFR peri base out a =
            .error "assertion failed: base_addr < addr") ∧
        (base < addr →
          processSFR peri base out a =
            Except.map (fun o => (cperi, addr, o))
              (synthesize (out ++ [newPeripheral cperi addr]) a.name
                (addr - addr) reset clr set inv a.mode))) ∧
    (∀ (peri : String) (base : Nat) (out : List Peripheral) (a : SFRDef)
        (araw addr reset : Nat) (clr set inv : Bool),
        parse_u32 a.addrAttr = some araw → addr = araw ||| 0xA0000000 →
        a.name = a.cname →
        decode_portals (a.portals.getD "- - -") = some (clr, set, inv) →
        decode_reset a.mclr = some reset →
        guess_peri a = .ok peri →
        (base ≤ addr →
          processSFR peri base out a =
            Except.map (fun o => (peri, base, o))
              (synthesize out a.name (addr - base) reset clr set inv
                a.mode)) ∧
        (addr < base →
          processSFR peri base out a =
            .error "assertion failed: base_addr <= addr")) := by
  refine ⟨?_, ?_, ?_⟩
  · intro entries peri' base' out' h
    exact (analyzeLoop_basesOk entries "" 0 [] peri' base' out' h
      ⟨List.chain'_nil, by simp⟩).1
  · intro peri cperi base out a araw addr reset clr set inv
      ha haddr hn hp hr hg hc
    subst haddr
    constructor
    · intro hle
      simp only [processSFR, ha, hp, hr, hg]
      rw [if_pos hn, if_pos hc, if_neg (by omega)]
    · intro hlt
      simp only [processSFR, ha, hp, hr, hg]
      rw [if_pos hn, if_pos hc, if_pos hlt]
      exact emitSFR_eq _ _ _ _ _ _ _ _ _ (Nat.le_refl _)
  · intro peri base out a araw addr reset clr set inv
      ha haddr hn hp hr hg
    subst haddr
    constructor
    · intro hle
      simp only [processSFR, ha, hp, hr, hg]
      rw [if_pos hn, if_neg (fun hh => hh rfl)]
      exact emitSFR_eq _ _ _ _ _ _ _ _ _ hle
    · intro hgt
      simp only [processSFR, ha, hp, hr, hg]
      rw [if_pos hn, if_neg (fun hh => hh rfl)]
      exact emitSFR_neg _ _ _ _ _ _ _ _ _ hgt

/-- Witness for C2: a register at physical address `0xA0001000` whose
label `"FOO"` differs from the active `"BAR"` group based at the higher
address `0xA0002000` aborts with the ordering assertion. -/
theorem grouping_order_spec_witness :
    processSFR "BAR" 0xA0002000 [newPeripheral "BAR" 0xA0002000]
        exNoPortals = .error "assertion failed: base_addr < addr" :=
  ((grouping_order_spec.2.1 "BAR" "FOO" 0xA0002000
      [newPeripheral "BAR" 0xA0002000] exNoPortals 4096 0xA0001000 16
      false false false (by rfl) (by rfl) (by rfl) (by rfl) (by rfl)
      (by rfl) (by decide)).1) (by norm_num)

end Edc2Svd
